import Mathlib

/-!
Shallow embedding of the kafkautomation repository's aggregation and
conflict-validation core, with proofs checking the natural-language
specification against it.

Embedded source files:
 * `scripts/validate-conflicts.py` — `load_kafka_catalog`,
   `load_schemas_catalog`, `validate_kafka_conflicts`,
   `validate_schemas_conflicts`, `main`.
 * `scripts/aggregate-kafka.py` — `aggregate_kafka_resources`.
 * `scripts/aggregate-schemas.py` — `aggregate_schemas`.

Modelling conventions:
 * Python dicts are association lists (`Dict α β`) with Python's
   insertion semantics: updating an existing key keeps its position,
   a new key is appended at the end (`pyInsert`).  Insertion-order
   iteration of `d.items()` is iteration over the association list.
 * A catalog entry's possibly-missing fields (`topic.get("name")`,
   `topic.get("_domain", "unknown")`) are `Option String`; `none`
   models an absent key (Python `None`), and the `, "unknown"` default
   of `dict.get` is `Option.getD "unknown"`.  Fields of an entry that
   the validator never reads (partitions, config, roles, …) are not
   modelled for the validator's entry types.
 * Conflict report lines are modelled as structured `Conflict` values,
   one constructor per `conflicts.append` site in the source, carrying
   exactly the data interpolated into the corresponding f-string
   (resource kind, identity, and the domains named).  For the
   duplicate-within-branch messages the source formats `set(domains)`,
   whose iteration order CPython leaves unspecified; the model carries
   the underlying domain list, which names the same set of domains.
 * Fallible I/O (file existence, YAML/JSON parsing) is made explicit:
   `FileState` records whether a path was missing, present but
   unparsable, or parsed to a document; `sys.exit(1)` paths in the
   aggregators are `Except.error`.
-/

/-! ### Python dict semantics -/

/-- Association-list model of a Python dict, in insertion order. -/
abbrev Dict (α β : Type) := List (α × β)

/-- Lookup of a key (Python `d[k]` / `k in d`).  `pyInsert` keeps keys
unique, so first match is the binding. -/
def dictGet {α β : Type} [DecidableEq α] : Dict α β → α → Option β
  | [], _ => none
  | (k', v) :: rest, k => if k' = k then some v else dictGet rest k

/-- Python `d[k] = v`: update an existing key in place (its position in
the iteration order is kept), otherwise append the new binding. -/
def pyInsert {α β : Type} [DecidableEq α] : Dict α β → α → β → Dict α β
  | [], k, v => [(k, v)]
  | (k', v') :: rest, k, v =>
      if k' = k then (k', v) :: rest else (k', v') :: pyInsert rest k v

/-- Python `defaultdict(list)`: `d[k].append(v)`. -/
def appendAt {α β : Type} [DecidableEq α] : Dict α (List β) → α → β → Dict α (List β)
  | [], k, v => [(k, [v])]
  | (k', vs) :: rest, k, v =>
      if k' = k then (k', vs ++ [v]) :: rest else (k', vs) :: appendAt rest k v

/-- The `seen = defaultdict(list); for k, v in items: seen[k].append(v)`
pattern of `validate-conflicts.py`. -/
def groupByKey {α β : Type} [DecidableEq α] (items : List (α × β)) : Dict α (List β) :=
  items.foldl (fun d p => appendAt d p.1 p.2) []

/-! ### Catalog data model as read by `validate-conflicts.py` -/

/-- One entry of a kafka catalog's `topics` list, restricted to the two
fields the validator reads: `topic.get("name")` and
`topic.get("_domain", "unknown")`. -/
structure TopicEntry where
  name : Option String
  domain : Option String
deriving DecidableEq

/-- One entry of a kafka catalog's `access_config` list, restricted to
`access.get("name")` and `access.get("_domain", "unknown")`. -/
structure AccessEntry where
  name : Option String
  domain : Option String
deriving DecidableEq

/-- One entry of a schemas catalog's `schemas` list, restricted to
`schema.get("subject")` and `schema.get("domain", "unknown")`. -/
structure SchemaEntry where
  subject : Option String
  domain : Option String
deriving DecidableEq

/-- An aggregated kafka catalog as consumed by the validator (a YAML
mapping with `topics` and `access_config` collections; the `schemas`
and `domains` collections are never read by `validate_kafka_conflicts`). -/
structure KafkaCatalog where
  topics : List TopicEntry
  access_config : List AccessEntry
deriving DecidableEq

/-- An aggregated schemas catalog as consumed by the validator. -/
structure SchemasCatalog where
  schemas : List SchemaEntry
deriving DecidableEq

/-- One structured conflict record, one constructor per
`conflicts.append` site of `validate-conflicts.py`, carrying the data
of the corresponding message. -/
inductive Conflict where
  | dupTopic (name : Option String) (domains : List String)
  | topicCollision (name : Option String) (deployedDomain branchDomain : String)
  | dupAccount (name : Option String) (domains : List String)
  | accountCollision (name : Option String) (deployedDomain branchDomain : String)
  | dupSubject (subject : Option String) (domains : List String)
  | subjectCollision (subject : Option String) (deployedDomain branchDomain : String)
deriving DecidableEq

/-! ### `validate_kafka_conflicts` / `validate_schemas_conflicts` -/

/-- Identity→domain mapping built by the
`for x in catalog.get(...): m[x.get(key)] = x.get(domkey, "unknown")`
loops: a Python dict insert per entry, missing domain defaulting to
`"unknown"`. -/
def buildMap (entries : List (Option String × Option String)) : Dict (Option String) String :=
  entries.foldl (fun d e => pyInsert d e.1 (e.2.getD "unknown")) []

/-- `branch_topics` / `deployed_topics` for a kafka catalog (`{}` when
the catalog is `None` or empty, per the `if branch_catalog:` guard). -/
def topicMap (c : Option KafkaCatalog) : Dict (Option String) String :=
  match c with
  | none => []
  | some cat => buildMap (cat.topics.map (fun t => (t.name, t.domain)))

/-- `branch_accounts` / `deployed_accounts` for a kafka catalog. -/
def accountMap (c : Option KafkaCatalog) : Dict (Option String) String :=
  match c with
  | none => []
  | some cat => buildMap (cat.access_config.map (fun a => (a.name, a.domain)))

/-- `branch_subjects` / `deployed_subjects` for a schemas catalog. -/
def subjectMap (c : Option SchemasCatalog) : Dict (Option String) String :=
  match c with
  | none => []
  | some cat => buildMap (cat.schemas.map (fun s => (s.subject, s.domain)))

/-- The duplicate-within-branch check: group the branch map's items by
identity with a `defaultdict(list)` and report every identity whose
domain list has more than one element.  `mk` is the conflict
constructor of the resource kind (the f-string shape). -/
def dupConflicts (mk : Option String → List String → Conflict)
    (bm : Dict (Option String) String) : List Conflict :=
  (groupByKey bm).filterMap
    (fun kd => if kd.2.length > 1 then some (mk kd.1 kd.2) else none)

/-- The branch-vs-deployed check: for each identity of the branch map,
in insertion order, report a collision when the identity is deployed
under a different domain. -/
def crossConflicts (mk : Option String → String → String → Conflict)
    (bm dm : Dict (Option String) String) : List Conflict :=
  bm.filterMap (fun kv =>
    match dictGet dm kv.1 with
    | some dd => if kv.2 ≠ dd then some (mk kv.1 dd kv.2) else none
    | none => none)

/-- `validate_kafka_conflicts(branch_catalog, deployed_catalog, environment)`:
returns `(is_valid, conflicts)` where conflicts accumulate in source
order — duplicate topics, topic collisions, duplicate service
accounts, service-account collisions — and `is_valid` is
`len(conflicts) == 0`.  The `environment` argument is unused by the
source function. -/
def validate_kafka_conflicts (branch deployed : Option KafkaCatalog)
    (environment : String) : Bool × List Conflict :=
  let branchTopics := topicMap branch
  let deployedTopics := topicMap deployed
  let branchAccounts := accountMap branch
  let deployedAccounts := accountMap deployed
  let conflicts :=
    dupConflicts Conflict.dupTopic branchTopics
      ++ crossConflicts Conflict.topicCollision branchTopics deployedTopics
      ++ dupConflicts Conflict.dupAccount branchAccounts
      ++ crossConflicts Conflict.accountCollision branchAccounts deployedAccounts
  (conflicts.length == 0, conflicts)

/-- `validate_schemas_conflicts(branch_catalog, deployed_catalog, environment)`:
duplicate subjects then subject collisions. -/
def validate_schemas_conflicts (branch deployed : Option SchemasCatalog)
    (environment : String) : Bool × List Conflict :=
  let branchSubjects := subjectMap branch
  let deployedSubjects := subjectMap deployed
  let conflicts :=
    dupConflicts Conflict.dupSubject branchSubjects
      ++ crossConflicts Conflict.subjectCollision branchSubjects deployedSubjects
  (conflicts.length == 0, conflicts)

/-! ### Catalog loading and `main` of `validate-conflicts.py` -/

/-- What the loader can observe about a catalog path: the file is
absent (or the path argument empty), present but failing to parse, or
parsed to a document (`parsed none` models a YAML/JSON `null`
document). -/
inductive FileState (α : Type) where
  | missing
  | malformed
  | parsed (doc : Option α)
deriving DecidableEq

/-- `load_kafka_catalog`: missing path → `None`; parse failure → print
an error and return `None`; otherwise `yaml.safe_load(f) or {}`, the
`or {}` turning a null document into an empty catalog. -/
def load_kafka_catalog : FileState KafkaCatalog → Option KafkaCatalog
  | .missing => none
  | .malformed => none
  | .parsed none => some ⟨[], []⟩
  | .parsed (some c) => some c

/-- `load_schemas_catalog`: missing path → `None`; parse failure →
print an error and return `None`; otherwise `json.load(f)` (a JSON
`null` document stays `None` — no `or {}` here). -/
def load_schemas_catalog : FileState SchemasCatalog → Option SchemasCatalog
  | .missing => none
  | .malformed => none
  | .parsed d => d

/-- The validator's command line: for each of the four catalog flags,
`none` means the flag was not supplied, `some s` the state of the file
at the supplied path. -/
structure Args where
  branch_kafka : Option (FileState KafkaCatalog)
  deployed_kafka : Option (FileState KafkaCatalog)
  branch_schemas : Option (FileState SchemasCatalog)
  deployed_schemas : Option (FileState SchemasCatalog)
  env : String

/-- The kafka half of `main`: skipped when `--branch-kafka` is not
supplied; the deployed catalog is loaded only when `--deployed-kafka`
is supplied. -/
def mainKafkaConflicts (args : Args) : List Conflict :=
  match args.branch_kafka with
  | none => []
  | some bf =>
      let b := load_kafka_catalog bf
      let d := match args.deployed_kafka with
               | none => none
               | some df => load_kafka_catalog df
      (validate_kafka_conflicts b d args.env).2

/-- The schemas half of `main`. -/
def mainSchemasConflicts (args : Args) : List Conflict :=
  match args.branch_schemas with
  | none => []
  | some bf =>
      let b := load_schemas_catalog bf
      let d := match args.deployed_schemas with
               | none => none
               | some df => load_schemas_catalog df
      (validate_schemas_conflicts b d args.env).2

/-- `main` of `validate-conflicts.py` as a pure function from the
command line to `(exit status, all_conflicts)`: kafka conflicts are
accumulated before schema conflicts, and the process exits 1 exactly
when the accumulated list is non-empty (otherwise 0). -/
def main_run (args : Args) : Nat × List Conflict :=
  let all := mainKafkaConflicts args ++ mainSchemasConflicts args
  (if all.length = 0 then 0 else 1, all)

/-! ### `aggregate-kafka.py` -/

/-- A raw declaration entry (`topic`, `schema`, `access` dict of a
`kafka-request.yaml`): a Python dict from field name to value; nested
values are abstracted as their scalar rendering. -/
abbrev RawEntry := Dict String String

/-- The parsed body of one domain's `kafka-request.yaml`. -/
structure KafkaRequest where
  topics : List RawEntry
  schemas : List RawEntry
  access_config : List RawEntry
deriving DecidableEq

/-- One `kafka-request.yaml` found by the glob, with the domain name
taken from the directory layout and the outcome of
`yaml.safe_load`: `.error e` models a raised parse/processing
exception, `.ok none` a null document (turned into `{}` by the
`or {}`). -/
structure DomainFile where
  domain : String
  fileName : String
  parse : Except String (Option KafkaRequest)

/-- The aggregated kafka catalog (`aggregated` dict of
`aggregate-kafka.py`). -/
structure AggregatedCatalog where
  topics : List RawEntry
  schemas : List RawEntry
  access_config : List RawEntry
  domains : List String
deriving DecidableEq

/-- `{**entry, "_domain": domain_name}`: a copy of the entry with the
`_domain` key set (dict-literal spread, later key winning). -/
def tagDomain (d : String) (e : RawEntry) : RawEntry :=
  pyInsert e "_domain" d

/-- The per-file loop body of `aggregate_kafka_resources`: on the first
parse/processing exception, print an error naming the file and
`sys.exit(1)` (no catalog is written); otherwise record the domain and
append its domain-tagged topics, schemas and access entries. -/
def aggregate_go : List DomainFile → AggregatedCatalog → Except String AggregatedCatalog
  | [], agg => .ok agg
  | f :: rest, agg =>
      match f.parse with
      | .error e => .error ("Error parsing " ++ f.fileName ++ ": " ++ e)
      | .ok doc =>
          let data := doc.getD ⟨[], [], []⟩
          aggregate_go rest
            ⟨agg.topics ++ data.topics.map (tagDomain f.domain),
             agg.schemas ++ data.schemas.map (tagDomain f.domain),
             agg.access_config ++ data.access_config.map (tagDomain f.domain),
             agg.domains ++ [f.domain]⟩

/-- `aggregate_kafka_resources(environment, output_dir)` on the sorted
list of matching `kafka-request.yaml` files (the glob result):
`.ok agg` means the catalog `agg` is written and the process exits 0,
`.error msg` means the process exits 1 before writing anything.  An
empty file list takes the `if not kafka_files` branch, which builds the
same empty catalog structure. -/
def aggregate_kafka_resources (files : List DomainFile) : Except String AggregatedCatalog :=
  aggregate_go files ⟨[], [], [], []⟩

/-- Exit status of an aggregator run: 0 on success, 1 on the
`sys.exit(1)` error paths. -/
def run_exit {α : Type} : Except String α → Nat
  | .ok _ => 0
  | .error _ => 1

/-! ### `aggregate-schemas.py` -/

/-- One `.avsc` file found by the schemas glob: domain from the
directory layout, subject from the file stem, and whether its content
parses as JSON (`json.loads` succeeding). -/
structure SchemaFile where
  domain : String
  subject : String
  filePath : String
  fileName : String
  contentValidJson : Bool
deriving DecidableEq

/-- The record appended to the schemas catalog for one schema file:
only the subject name, the domain and the file reference — nothing of
the file's content. -/
structure SchemaRecord where
  subject : String
  domain : String
  file_path : String
  file_name : String
deriving DecidableEq

/-- The schemas catalog document written by `aggregate-schemas.py`
(the constant `timestamp: None` placeholder is not modelled). -/
structure SchemasCatalogOut where
  schemas : List SchemaRecord
  environment : String
deriving DecidableEq

/-- The per-file loop of `aggregate_schemas`: `json.loads` failing on a
file's content prints an error naming the file and exits 1 (fail-fast,
before any write); otherwise the subject/domain/file-reference record
is appended. -/
def aggregate_schemas_go : List SchemaFile → SchemasCatalogOut → Except String SchemasCatalogOut
  | [], cat => .ok cat
  | f :: rest, cat =>
      if f.contentValidJson then
        aggregate_schemas_go rest
          ⟨cat.schemas ++ [⟨f.subject, f.domain, f.filePath, f.fileName⟩], cat.environment⟩
      else
        .error ("Error: Invalid JSON in " ++ f.filePath)

/-- `aggregate_schemas(environment, output_dir)` on the sorted list of
matching `.avsc` files. -/
def aggregate_schemas (environment : String) (files : List SchemaFile) :
    Except String SchemasCatalogOut :=
  aggregate_schemas_go files ⟨[], environment⟩

/-! ### Derived notions used by the statements -/

/-- Key list of a dict, in insertion order. -/
def keys {α β : Type} (d : Dict α β) : List α := d.map Prod.fst

/-- Conflict lines of the topic kind that name the identity `k`. -/
def isTopicConflictAt (k : Option String) : Conflict → Bool
  | .dupTopic n _ => decide (n = k)
  | .topicCollision n _ _ => decide (n = k)
  | _ => false

/-- Conflict lines of the service-account kind that name the identity `k`. -/
def isAccountConflictAt (k : Option String) : Conflict → Bool
  | .dupAccount n _ => decide (n = k)
  | .accountCollision n _ _ => decide (n = k)
  | _ => false

/-- Conflict lines of the schema-subject kind that name the identity `k`. -/
def isSubjectConflictAt (k : Option String) : Conflict → Bool
  | .dupSubject n _ => decide (n = k)
  | .subjectCollision n _ _ => decide (n = k)
  | _ => false

/-- Replace the present-but-unparsable file state by the missing one,
leaving everything else unchanged. -/
def demoteFile {α : Type} : FileState α → FileState α
  | .malformed => .missing
  | s => s

/-- `demoteFile` applied to every catalog path of a command line. -/
def demoteArgs (a : Args) : Args :=
  ⟨a.branch_kafka.map demoteFile, a.deployed_kafka.map demoteFile,
   a.branch_schemas.map demoteFile, a.deployed_schemas.map demoteFile, a.env⟩

/-- The three identity namespaces of the validator. -/
inductive ResourceKind where
  | topic
  | schema
  | access
deriving DecidableEq

/-- The resource kind a conflict record belongs to. -/
def conflictKind : Conflict → ResourceKind
  | .dupTopic _ _ => .topic
  | .topicCollision _ _ _ => .topic
  | .dupAccount _ _ => .access
  | .accountCollision _ _ _ => .access
  | .dupSubject _ _ => .schema
  | .subjectCollision _ _ _ => .schema

/-- Modelled from the claim wording, not from the source: the position
of each resource kind in the order the specification asserts for the
accumulated conflict list — topics, then schema subjects, then access
entries. -/
def specKindIndex : ResourceKind → Nat
  | .topic => 0
  | .schema => 1
  | .access => 2

/-- Claim-side predicate (from the spec wording, for refutation): the
conflict list is ordered by non-decreasing `specKindIndex`. -/
def specKindOrderedB : List Conflict → Bool
  | [] => true
  | [_] => true
  | a :: b :: rest =>
      decide (specKindIndex (conflictKind a) ≤ specKindIndex (conflictKind b))
        && specKindOrderedB (b :: rest)

/-! ### Concrete inputs used by counterexamples and witnesses -/

/-- The spec's example branch catalog: `orders.created` declared by both
`orders` and `billing`. -/
def c1Branch : KafkaCatalog :=
  ⟨[⟨some "orders.created", some "orders"⟩, ⟨some "orders.created", some "billing"⟩], []⟩

/-- A command line whose branch kafka catalog file exists but fails to
parse. -/
def c2Args : Args := ⟨some .malformed, none, none, none, "dev"⟩

/-- A branch catalog (deployed counterpart below) with one topic. -/
def c3Branch : KafkaCatalog := ⟨[⟨some "orders.created", some "billing"⟩], []⟩

/-- A deployed catalog owning the same topic under another domain. -/
def c3Deployed : KafkaCatalog := ⟨[⟨some "orders.created", some "orders"⟩], []⟩

/-- A run producing one service-account conflict and one schema-subject
conflict. -/
def c4Args : Args :=
  ⟨some (.parsed (some ⟨[], [⟨some "svc", some "orders"⟩]⟩)),
   some (.parsed (some ⟨[], [⟨some "svc", some "billing"⟩]⟩)),
   some (.parsed (some ⟨[⟨some "subj", some "orders"⟩]⟩)),
   some (.parsed (some ⟨[⟨some "subj", some "billing"⟩]⟩)),
   "dev"⟩

/-- A domain file that parses. -/
def c8Good : DomainFile :=
  ⟨"orders", "domains/orders/dev/kafka-request.yaml",
   .ok (some ⟨[[("name", "orders.created")]], [], []⟩)⟩

/-- A domain file whose YAML fails to parse. -/
def c8Bad : DomainFile :=
  ⟨"billing", "domains/billing/dev/kafka-request.yaml", .error "bad yaml"⟩

/-- A further domain file after the failing one. -/
def c8Rest : DomainFile :=
  ⟨"payments", "domains/payments/dev/kafka-request.yaml", .error "also bad"⟩

/-- A schema file whose content is not valid JSON. -/
def c9Bad : SchemaFile :=
  ⟨"orders", "orders.created", "domains/orders/dev/schemas/orders.created.avsc",
   "orders.created.avsc", false⟩

/-- A schema file whose content is valid JSON. -/
def c9Good : SchemaFile :=
  ⟨"billing", "invoice.created", "domains/billing/dev/schemas/invoice.created.avsc",
   "invoice.created.avsc", true⟩

/-- A branch catalog whose only topic entry has no `name` key. -/
def c10Branch : KafkaCatalog := ⟨[⟨none, some "orders"⟩], []⟩

/-- A deployed catalog whose only topic entry has no `name` key either,
owned by another domain. -/
def c10Deployed : KafkaCatalog := ⟨[⟨none, some "billing"⟩], []⟩

/-! ### Dict lemmas -/

theorem keys_nil {α β : Type} : keys ([] : Dict α β) = [] := rfl

theorem keys_cons {α β : Type} (k : α) (v : β) (tl : Dict α β) :
    keys ((k, v) :: tl) = k :: keys tl := rfl

theorem keys_append {α β : Type} (d d' : Dict α β) :
    keys (d ++ d') = keys d ++ keys d' := List.map_append Prod.fst d d'

theorem mem_keys_of_mem {α β : Type} {d : Dict α β} {p : α × β}
    (h : p ∈ d) : p.1 ∈ keys d := List.mem_map_of_mem Prod.fst h

theorem dictGet_nil {α β : Type} [DecidableEq α] (k : α) :
    dictGet ([] : Dict α β) k = none := rfl

theorem dictGet_cons {α β : Type} [DecidableEq α] (k' k : α) (v : β) (rest : Dict α β) :
    dictGet ((k', v) :: rest) k = if k' = k then some v else dictGet rest k := rfl

theorem mem_keys_pyInsert {α β : Type} [DecidableEq α]
    (d : Dict α β) (k : α) (v : β) (a : α)
    (h : a ∈ keys (pyInsert d k v)) : a ∈ keys d ∨ a = k := by
  induction d with
  | nil =>
    right
    rw [show pyInsert ([] : Dict α β) k v = [(k, v)] from rfl, keys_cons] at h
    exact List.mem_singleton.mp h
  | cons hd tl ih =>
    obtain ⟨k', v'⟩ := hd
    by_cases hk : k' = k
    · rw [show pyInsert ((k', v') :: tl) k v = (k', v) :: tl from by
          rw [pyInsert]; rw [if_pos hk], keys_cons] at h
      left
      rw [keys_cons]
      exact h
    · rw [show pyInsert ((k', v') :: tl) k v = (k', v') :: pyInsert tl k v from by
          rw [pyInsert]; rw [if_neg hk], keys_cons] at h
      rcases List.mem_cons.mp h with h' | h'
      · left; rw [keys_cons]; exact List.mem_cons.mpr (Or.inl h')
      · rcases ih h' with h'' | h''
        · left; rw [keys_cons]; exact List.mem_cons.mpr (Or.inr h'')
        · right; exact h''

theorem nodup_keys_pyInsert {α β : Type} [DecidableEq α]
    (d : Dict α β) (k : α) (v : β)
    (h : (keys d).Nodup) : (keys (pyInsert d k v)).Nodup := by
  induction d with
  | nil =>
    rw [show pyInsert ([] : Dict α β) k v = [(k, v)] from rfl, keys_cons, keys_nil]
    exact List.nodup_singleton k
  | cons hd tl ih =>
    obtain ⟨k', v'⟩ := hd
    rw [keys_cons, List.nodup_cons] at h
    by_cases hk : k' = k
    · rw [show pyInsert ((k', v') :: tl) k v = (k', v) :: tl from by
          rw [pyInsert]; rw [if_pos hk], keys_cons, List.nodup_cons]
      exact h
    · rw [show pyInsert ((k', v') :: tl) k v = (k', v') :: pyInsert tl k v from by
          rw [pyInsert]; rw [if_neg hk], keys_cons, List.nodup_cons]
      refine ⟨fun hm => ?_, ih h.2⟩
      rcases mem_keys_pyInsert tl k v k' hm with h' | h'
      · exact h.1 h'
      · exact hk h'

theorem nodup_keys_buildMap_aux (es : List (Option String × Option String))
    (d : Dict (Option String) String) (h : (keys d).Nodup) :
    (keys (es.foldl (fun d e => pyInsert d e.1 (e.2.getD "unknown")) d)).Nodup := by
  induction es generalizing d with
  | nil => exact h
  | cons e rest ih => exact ih _ (nodup_keys_pyInsert d e.1 (e.2.getD "unknown") h)

theorem nodup_keys_buildMap (es : List (Option String × Option String)) :
    (keys (buildMap es)).Nodup :=
  nodup_keys_buildMap_aux es [] List.nodup_nil

theorem nodup_keys_topicMap (c : Option KafkaCatalog) :
    (keys (topicMap c)).Nodup := by
  cases c with
  | none => exact List.nodup_nil
  | some cat => exact nodup_keys_buildMap _

theorem nodup_keys_accountMap (c : Option KafkaCatalog) :
    (keys (accountMap c)).Nodup := by
  cases c with
  | none => exact List.nodup_nil
  | some cat => exact nodup_keys_buildMap _

theorem nodup_keys_subjectMap (c : Option SchemasCatalog) :
    (keys (subjectMap c)).Nodup := by
  cases c with
  | none => exact List.nodup_nil
  | some cat => exact nodup_keys_buildMap _

theorem dictGet_pyInsert_same {α β : Type} [DecidableEq α]
    (d : Dict α β) (k : α) (v : β) : dictGet (pyInsert d k v) k = some v := by
  induction d with
  | nil => rw [show pyInsert ([] : Dict α β) k v = [(k, v)] from rfl, dictGet_cons, if_pos rfl]
  | cons hd tl ih =>
    obtain ⟨k', v'⟩ := hd
    by_cases hk : k' = k
    · rw [show pyInsert ((k', v') :: tl) k v = (k', v) :: tl from by
          rw [pyInsert]; rw [if_pos hk], dictGet_cons, if_pos hk]
    · rw [show pyInsert ((k', v') :: tl) k v = (k', v') :: pyInsert tl k v from by
          rw [pyInsert]; rw [if_neg hk], dictGet_cons, if_neg hk, ih]

theorem dictGet_mem {α β : Type} [DecidableEq α]
    (d : Dict α β) (k : α) (v : β) (h : dictGet d k = some v) : (k, v) ∈ d := by
  induction d with
  | nil => exact absurd h (by rw [dictGet_nil]; exact Option.noConfusion)
  | cons hd tl ih =>
    obtain ⟨k', v'⟩ := hd
    by_cases hk : k' = k
    · rw [dictGet_cons, if_pos hk] at h
      have hv : v' = v := Option.some.inj h
      rw [← hk, ← hv]
      exact List.mem_cons_self _ _
    · rw [dictGet_cons, if_neg hk] at h
      exact List.mem_cons_of_mem _ (ih h)

theorem appendAt_not_mem {α β : Type} [DecidableEq α]
    (d : Dict α (List β)) (k : α) (v : β) (h : k ∉ keys d) :
    appendAt d k v = d ++ [(k, [v])] := by
  induction d with
  | nil => rfl
  | cons hd tl ih =>
    obtain ⟨k', vs⟩ := hd
    rw [keys_cons] at h
    have hk : k' ≠ k := fun he => h (List.mem_cons.mpr (Or.inl he.symm))
    have htl : k ∉ keys tl := fun hm => h (List.mem_cons.mpr (Or.inr hm))
    rw [appendAt]
    rw [if_neg hk, ih htl]
    rfl

theorem groupByKey_aux {α β : Type} [DecidableEq α]
    (items : List (α × β)) (acc : Dict α (List β))
    (hdisj : ∀ p ∈ items, p.1 ∉ keys acc)
    (hnd : (items.map Prod.fst).Nodup) :
    items.foldl (fun d p => appendAt d p.1 p.2) acc
      = acc ++ items.map (fun p => (p.1, [p.2])) := by
  induction items generalizing acc with
  | nil => rw [List.foldl_nil, List.map_nil, List.append_nil]
  | cons p rest ih =>
    obtain ⟨k, v⟩ := p
    rw [List.map_cons, List.nodup_cons] at hnd
    rw [List.foldl_cons]
    rw [show appendAt acc (k, v).1 (k, v).2 = acc ++ [(k, [v])] from
        appendAt_not_mem acc k v (hdisj (k, v) (List.mem_cons_self _ _))]
    rw [ih (acc ++ [(k, [v])])]
    · rw [List.map_cons, List.append_assoc]
      rfl
    · intro q hq
      rw [keys_append, List.mem_append]
      rintro (hm | hm)
      · exact hdisj q (List.mem_cons_of_mem _ hq) hm
      · rw [show keys [(k, [v])] = [k] from rfl, List.mem_singleton] at hm
        have hq1 : q.1 ∈ rest.map Prod.fst := List.mem_map_of_mem Prod.fst hq
        rw [hm] at hq1
        exact hnd.1 hq1
    · exact hnd.2

theorem groupByKey_of_nodup {α β : Type} [DecidableEq α]
    (items : List (α × β)) (hnd : (items.map Prod.fst).Nodup) :
    groupByKey items = items.map (fun p => (p.1, [p.2])) := by
  unfold groupByKey
  rw [groupByKey_aux items [] (fun p _ => List.not_mem_nil p.1) hnd]
  rw [List.nil_append]

theorem dupConflicts_eq_nil (mk : Option String → List String → Conflict)
    (bm : Dict (Option String) String) (hnd : (keys bm).Nodup) :
    dupConflicts mk bm = [] := by
  unfold dupConflicts
  rw [groupByKey_of_nodup bm hnd]
  rw [List.filterMap_eq_nil_iff]
  intro kd hkd
  obtain ⟨p, _, hp⟩ := List.mem_map.mp hkd
  rw [← hp]
  rfl

theorem crossConflicts_deployed_nil (mk : Option String → String → String → Conflict)
    (bm : Dict (Option String) String) : crossConflicts mk bm [] = [] := by
  unfold crossConflicts
  rw [List.filterMap_eq_nil_iff]
  intro kv _
  rw [dictGet_nil]

/-! ### Counting conflicts of one identity -/

theorem mem_crossConflicts {mk : Option String → String → String → Conflict}
    {bm dm : Dict (Option String) String} {c : Conflict}
    (hc : c ∈ crossConflicts mk bm dm) :
    ∃ n dd bd, c = mk n dd bd ∧ (n, bd) ∈ bm := by
  unfold crossConflicts at hc
  obtain ⟨kv, hmem, hf⟩ := List.mem_filterMap.mp hc
  obtain ⟨n, bd⟩ := kv
  cases hdm : dictGet dm n with
  | none =>
    rw [hdm] at hf
    exact Option.noConfusion hf
  | some dd =>
    rw [hdm] at hf
    have hf' : (if bd ≠ dd then some (mk n dd bd) else none) = some c := hf
    by_cases hne : bd ≠ dd
    · rw [if_pos hne] at hf'
      exact ⟨n, dd, bd, (Option.some.inj hf').symm, hmem⟩
    · rw [if_neg hne] at hf'
      exact Option.noConfusion hf'

theorem crossConflicts_countP_zero_kind
    (mk : Option String → String → String → Conflict) (p : Conflict → Bool)
    (hp : ∀ n dd bd, p (mk n dd bd) = false)
    (bm dm : Dict (Option String) String) :
    (crossConflicts mk bm dm).countP p = 0 := by
  rw [List.countP_eq_zero]
  intro c hc
  obtain ⟨n, dd, bd, hcm, _⟩ := mem_crossConflicts hc
  rw [hcm, hp]
  exact Bool.false_ne_true

theorem crossConflicts_countP_zero
    (mk : Option String → String → String → Conflict) (p : Conflict → Bool)
    (k : Option String) (hp : ∀ n dd bd, p (mk n dd bd) = decide (n = k))
    (bm dm : Dict (Option String) String) (hk : k ∉ keys bm) :
    (crossConflicts mk bm dm).countP p = 0 := by
  rw [List.countP_eq_zero]
  intro c hc
  obtain ⟨n, dd, bd, hcm, hmem⟩ := mem_crossConflicts hc
  have hn : n ≠ k := fun he => hk (he ▸ mem_keys_of_mem hmem)
  rw [hcm, hp]
  simp [hn]

theorem crossConflicts_cons (mk : Option String → String → String → Conflict)
    (k1 : Option String) (v1 : String) (tl dm : Dict (Option String) String) :
    crossConflicts mk ((k1, v1) :: tl) dm
      = (match dictGet dm k1 with
         | some dd => if v1 ≠ dd then [mk k1 dd v1] else []
         | none => []) ++ crossConflicts mk tl dm := by
  unfold crossConflicts
  rw [List.filterMap_cons]
  cases hdm : dictGet dm k1 with
  | none => rfl
  | some dd =>
    by_cases hne : v1 = dd
    · simp [hne]
    · simp [hne]

theorem crossConflicts_countP
    (mk : Option String → String → String → Conflict) (p : Conflict → Bool)
    (k : Option String) (hp : ∀ n dd bd, p (mk n dd bd) = decide (n = k)) :
    ∀ (bm : Dict (Option String) String), (keys bm).Nodup →
      ∀ (dm : Dict (Option String) String) (bd dd : String),
        dictGet bm k = some bd → dictGet dm k = some dd →
        (crossConflicts mk bm dm).countP p = if bd = dd then 0 else 1 := by
  intro bm
  induction bm with
  | nil =>
    intro _ dm bd dd hb _
    exact absurd hb Option.noConfusion
  | cons hd tl ih =>
    rintro hnd dm bd dd hb hdm
    obtain ⟨k1, v1⟩ := hd
    rw [keys_cons, List.nodup_cons] at hnd
    rw [crossConflicts_cons, List.countP_append]
    by_cases hk : k1 = k
    · subst hk
      rw [dictGet_cons, if_pos rfl] at hb
      have hbd : v1 = bd := Option.some.inj hb
      subst hbd
      rw [crossConflicts_countP_zero mk p k1 hp tl dm hnd.1, hdm]
      by_cases hne : v1 = dd
      · simp [hne]
      · simp [hne, hp, List.countP_cons]
    · have hb' : dictGet tl k = some bd := by
        rw [dictGet_cons, if_neg hk] at hb
        exact hb
      rw [ih hnd.2 dm bd dd hb' hdm]
      cases hdm1 : dictGet dm k1 with
      | none => simp
      | some dd1 =>
        by_cases hne1 : v1 = dd1
        · simp [hne1]
        · simp [hne1, hp, hk, List.countP_cons]

theorem crossConflicts_mem_of_ne
    (mk : Option String → String → String → Conflict)
    (bm dm : Dict (Option String) String) (k : Option String) (bd dd : String)
    (hb : dictGet bm k = some bd) (hd : dictGet dm k = some dd) (hne : bd ≠ dd) :
    mk k dd bd ∈ crossConflicts mk bm dm := by
  unfold crossConflicts
  rw [List.mem_filterMap]
  refine ⟨(k, bd), dictGet_mem bm k bd hb, ?_⟩
  have hstep : (match dictGet dm k with
      | some dd => if bd ≠ dd then some (mk k dd bd) else none
      | none => none) = some (mk k dd bd) := by
    rw [hd]
    exact if_pos hne
  exact hstep

theorem mem_dupConflicts {mk : Option String → List String → Conflict}
    {bm : Dict (Option String) String} {c : Conflict}
    (hc : c ∈ dupConflicts mk bm) : ∃ n ds, c = mk n ds := by
  unfold dupConflicts at hc
  obtain ⟨kd, _, hf⟩ := List.mem_filterMap.mp hc
  by_cases h : kd.2.length > 1
  · rw [if_pos h] at hf
    exact ⟨kd.1, kd.2, (Option.some.inj hf).symm⟩
  · rw [if_neg h] at hf
    exact Option.noConfusion hf

/-! ### The conflict list of one validator run, by kind -/

theorem validate_kafka_conflicts_snd (b d : Option KafkaCatalog) (env : String) :
    (validate_kafka_conflicts b d env).2
      = dupConflicts Conflict.dupTopic (topicMap b)
        ++ crossConflicts Conflict.topicCollision (topicMap b) (topicMap d)
        ++ dupConflicts Conflict.dupAccount (accountMap b)
        ++ crossConflicts Conflict.accountCollision (accountMap b) (accountMap d) := rfl

theorem validate_schemas_conflicts_snd (b d : Option SchemasCatalog) (env : String) :
    (validate_schemas_conflicts b d env).2
      = dupConflicts Conflict.dupSubject (subjectMap b)
        ++ crossConflicts Conflict.subjectCollision (subjectMap b) (subjectMap d) := rfl

theorem kafka_topic_conflict_count (b d : Option KafkaCatalog) (env : String)
    (k : Option String) (bd dd : String)
    (hb : dictGet (topicMap b) k = some bd)
    (hd : dictGet (topicMap d) k = some dd) :
    ((validate_kafka_conflicts b d env).2.countP (isTopicConflictAt k)
        = if bd = dd then 0 else 1)
    ∧ (bd ≠ dd → Conflict.topicCollision k dd bd ∈ (validate_kafka_conflicts b d env).2) := by
  constructor
  · rw [validate_kafka_conflicts_snd,
        dupConflicts_eq_nil Conflict.dupTopic _ (nodup_keys_topicMap b),
        dupConflicts_eq_nil Conflict.dupAccount _ (nodup_keys_accountMap b),
        List.nil_append, List.append_nil, List.countP_append,
        crossConflicts_countP Conflict.topicCollision (isTopicConflictAt k) k
          (fun _ _ _ => rfl) (topicMap b) (nodup_keys_topicMap b) (topicMap d) bd dd hb hd,
        crossConflicts_countP_zero_kind Conflict.accountCollision (isTopicConflictAt k)
          (fun _ _ _ => rfl) (accountMap b) (accountMap d)]
    rw [Nat.add_zero]
  · intro hne
    rw [validate_kafka_conflicts_snd]
    have hm := crossConflicts_mem_of_ne Conflict.topicCollision
      (topicMap b) (topicMap d) k bd dd hb hd hne
    exact List.mem_append.mpr (Or.inl (List.mem_append.mpr (Or.inl
      (List.mem_append.mpr (Or.inr hm)))))

theorem kafka_account_conflict_count (b d : Option KafkaCatalog) (env : String)
    (k : Option String) (bd dd : String)
    (hb : dictGet (accountMap b) k = some bd)
    (hd : dictGet (accountMap d) k = some dd) :
    ((validate_kafka_conflicts b d env).2.countP (isAccountConflictAt k)
        = if bd = dd then 0 else 1)
    ∧ (bd ≠ dd → Conflict.accountCollision k dd bd ∈ (validate_kafka_conflicts b d env).2) := by
  constructor
  · rw [validate_kafka_conflicts_snd,
        dupConflicts_eq_nil Conflict.dupTopic _ (nodup_keys_topicMap b),
        dupConflicts_eq_nil Conflict.dupAccount _ (nodup_keys_accountMap b),
        List.nil_append, List.append_nil, List.countP_append,
        crossConflicts_countP Conflict.accountCollision (isAccountConflictAt k) k
          (fun _ _ _ => rfl) (accountMap b) (nodup_keys_accountMap b) (accountMap d) bd dd hb hd,
        crossConflicts_countP_zero_kind Conflict.topicCollision (isAccountConflictAt k)
          (fun _ _ _ => rfl) (topicMap b) (topicMap d)]
    rw [Nat.zero_add]
  · intro hne
    rw [validate_kafka_conflicts_snd]
    have hm := crossConflicts_mem_of_ne Conflict.accountCollision
      (accountMap b) (accountMap d) k bd dd hb hd hne
    exact List.mem_append.mpr (Or.inr hm)

theorem load_kafka_demote (fk : FileState KafkaCatalog) :
    load_kafka_catalog (demoteFile fk) = load_kafka_catalog fk := by
  cases fk <;> rfl

theorem load_schemas_demote (fs : FileState SchemasCatalog) :
    load_schemas_catalog (demoteFile fs) = load_schemas_catalog fs := by
  cases fs <;> rfl

theorem mainKafka_demote (args : Args) :
    mainKafkaConflicts (demoteArgs args) = mainKafkaConflicts args := by
  obtain ⟨bk, dk, bs, ds, env⟩ := args
  cases bk with
  | none => rfl
  | some bf =>
    cases dk with
    | none =>
      show (validate_kafka_conflicts (load_kafka_catalog (demoteFile bf)) none env).2
          = (validate_kafka_conflicts (load_kafka_catalog bf) none env).2
      rw [load_kafka_demote]
    | some df =>
      show (validate_kafka_conflicts (load_kafka_catalog (demoteFile bf))
              (load_kafka_catalog (demoteFile df)) env).2
          = (validate_kafka_conflicts (load_kafka_catalog bf) (load_kafka_catalog df) env).2
      rw [load_kafka_demote, load_kafka_demote]

theorem mainSchemas_demote (args : Args) :
    mainSchemasConflicts (demoteArgs args) = mainSchemasConflicts args := by
  obtain ⟨bk, dk, bs, ds, env⟩ := args
  cases bs with
  | none => rfl
  | some bf =>
    cases ds with
    | none =>
      show (validate_schemas_conflicts (load_schemas_catalog (demoteFile bf)) none env).2
          = (validate_schemas_conflicts (load_schemas_catalog bf) none env).2
      rw [load_schemas_demote]
    | some df =>
      show (validate_schemas_conflicts (load_schemas_catalog (demoteFile bf))
              (load_schemas_catalog (demoteFile df)) env).2
          = (validate_schemas_conflicts (load_schemas_catalog bf) (load_schemas_catalog df) env).2
      rw [load_schemas_demote, load_schemas_demote]

theorem schemas_subject_conflict_count (b d : Option SchemasCatalog) (env : String)
    (k : Option String) (bd dd : String)
    (hb : dictGet (subjectMap b) k = some bd)
    (hd : dictGet (subjectMap d) k = some dd) :
    ((validate_schemas_conflicts b d env).2.countP (isSubjectConflictAt k)
        = if bd = dd then 0 else 1)
    ∧ (bd ≠ dd → Conflict.subjectCollision k dd bd ∈ (validate_schemas_conflicts b d env).2) := by
  constructor
  · rw [validate_schemas_conflicts_snd,
        dupConflicts_eq_nil Conflict.dupSubject _ (nodup_keys_subjectMap b),
        List.nil_append,
        crossConflicts_countP Conflict.subjectCollision (isSubjectConflictAt k) k
          (fun _ _ _ => rfl) (subjectMap b) (nodup_keys_subjectMap b) (subjectMap d) bd dd hb hd]
  · intro hne
    rw [validate_schemas_conflicts_snd]
    have hm := crossConflicts_mem_of_ne Conflict.subjectCollision
      (subjectMap b) (subjectMap d) k bd dd hb hd hne
    exact List.mem_append.mpr (Or.inr hm)

/-! ### Claim theorems -/

/-- Claim C1 (code bug): the duplicate-within-branch check of
`validate_kafka_conflicts` can never emit a conflict, because the
identity→domain mapping it inspects is a Python dict in which a second
declaration of the same identity silently overwrites the first, so the
grouped domain lists are always singletons.  At the specification's own
example — two branch topic entries named `orders.created` owned by
`orders` and `billing`, no deployed catalog — the code reports no
conflict and a valid verdict with exit status 0, where the claim (and
the module's own docstring) requires exactly one duplicate-within-branch
conflict naming both domains and exit status 1.  The third conjunct
shows the check is dead code on every input. -/
theorem c1_duplicate_within_branch_never_fires :
    validate_kafka_conflicts (some c1Branch) none "dev" = (true, [])
    ∧ main_run ⟨some (.parsed (some c1Branch)), none, none, none, "dev"⟩ = (0, [])
    ∧ ∀ (mk : Option String → List String → Conflict)
        (es : List (Option String × Option String)),
        dupConflicts mk (buildMap es) = [] := by
  refine ⟨rfl, rfl, fun mk es => dupConflicts_eq_nil mk _ (nodup_keys_buildMap es)⟩

/-- Claim C2 counterexample: with a branch kafka catalog path whose file
exists but fails to parse, the run does not abort — it completes and
produces a verdict (exit status 0 and an empty conflict report),
contradicting the claim that such an input is fatal for the whole
validation run with no verdict produced. -/
theorem c2_counterexample : main_run c2Args = (0, []) := rfl

/-- Claim C2 (amended): a catalog file that exists but fails to parse is
loaded as `None` — exactly as if the file were missing — and the run
continues, producing the same verdict and conflict report as it would
with that catalog absent. -/
theorem c2_malformed_treated_as_missing :
    (∀ fk : FileState KafkaCatalog,
        load_kafka_catalog (demoteFile fk) = load_kafka_catalog fk)
    ∧ (∀ fs : FileState SchemasCatalog,
        load_schemas_catalog (demoteFile fs) = load_schemas_catalog fs)
    ∧ (∀ args : Args, main_run (demoteArgs args) = main_run args) := by
  refine ⟨load_kafka_demote, load_schemas_demote, fun args => ?_⟩
  show (let all := mainKafkaConflicts (demoteArgs args) ++ mainSchemasConflicts (demoteArgs args)
        (if all.length = 0 then 0 else 1, all))
      = main_run args
  rw [mainKafka_demote, mainSchemas_demote]
  rfl

/-- Claim C3: for every identity present in both the branch and the
deployed identity→domain mapping of a resource kind, the validator
emits a conflict for that identity iff the branch owning domain differs
from the deployed owning domain (exactly one such conflict, the
collision record naming the identity, the deployed domain and the
branch domain), and equal ownership yields no conflict for that
identity; stated for topics, service accounts and schema subjects. -/
theorem c3_ownership_change_iff :
    (∀ (b d : Option KafkaCatalog) (env : String) (k : Option String) (bd dd : String),
        dictGet (topicMap b) k = some bd → dictGet (topicMap d) k = some dd →
        (((validate_kafka_conflicts b d env).2.countP (isTopicConflictAt k)
            = if bd = dd then 0 else 1)
          ∧ (bd ≠ dd →
              Conflict.topicCollision k dd bd ∈ (validate_kafka_conflicts b d env).2)))
    ∧ (∀ (b d : Option KafkaCatalog) (env : String) (k : Option String) (bd dd : String),
        dictGet (accountMap b) k = some bd → dictGet (accountMap d) k = some dd →
        (((validate_kafka_conflicts b d env).2.countP (isAccountConflictAt k)
            = if bd = dd then 0 else 1)
          ∧ (bd ≠ dd →
              Conflict.accountCollision k dd bd ∈ (validate_kafka_conflicts b d env).2)))
    ∧ (∀ (b d : Option SchemasCatalog) (env : String) (k : Option String) (bd dd : String),
        dictGet (subjectMap b) k = some bd → dictGet (subjectMap d) k = some dd →
        (((validate_schemas_conflicts b d env).2.countP (isSubjectConflictAt k)
            = if bd = dd then 0 else 1)
          ∧ (bd ≠ dd →
              Conflict.subjectCollision k dd bd ∈ (validate_schemas_conflicts b d env).2))) :=
  ⟨kafka_topic_conflict_count, kafka_account_conflict_count, schemas_subject_conflict_count⟩

/-- Witness for C3 at a concrete pair of catalogs: `orders.created`
deployed under `orders`, declared in the branch by `billing` — exactly
one topic conflict, naming the identity and both domains. -/
theorem c3_ownership_change_iff_witness :
    ((validate_kafka_conflicts (some c3Branch) (some c3Deployed) "dev").2.countP
        (isTopicConflictAt (some "orders.created")) = 1)
    ∧ Conflict.topicCollision (some "orders.created") "orders" "billing"
        ∈ (validate_kafka_conflicts (some c3Branch) (some c3Deployed) "dev").2 := by
  have h := c3_ownership_change_iff.1 (some c3Branch) (some c3Deployed) "dev"
      (some "orders.created") "billing" "orders" rfl rfl
  refine ⟨?_, h.2 (by decide)⟩
  rw [h.1]
  rfl

theorem validate_kafka_kinds (b d : Option KafkaCatalog) (env : String) :
    ∃ t a, (validate_kafka_conflicts b d env).2 = t ++ a
      ∧ (∀ c ∈ t, conflictKind c = ResourceKind.topic)
      ∧ (∀ c ∈ a, conflictKind c = ResourceKind.access) := by
  refine ⟨dupConflicts Conflict.dupTopic (topicMap b)
      ++ crossConflicts Conflict.topicCollision (topicMap b) (topicMap d),
    dupConflicts Conflict.dupAccount (accountMap b)
      ++ crossConflicts Conflict.accountCollision (accountMap b) (accountMap d),
    ?_, ?_, ?_⟩
  · rw [validate_kafka_conflicts_snd, List.append_assoc]
  · intro c hc
    rcases List.mem_append.mp hc with h | h
    · obtain ⟨n, ds, rfl⟩ := mem_dupConflicts h
      rfl
    · obtain ⟨n, dd, bd, rfl, -⟩ := mem_crossConflicts h
      rfl
  · intro c hc
    rcases List.mem_append.mp hc with h | h
    · obtain ⟨n, ds, rfl⟩ := mem_dupConflicts h
      rfl
    · obtain ⟨n, dd, bd, rfl, -⟩ := mem_crossConflicts h
      rfl

theorem validate_schemas_kinds (b d : Option SchemasCatalog) (env : String) :
    ∀ c ∈ (validate_schemas_conflicts b d env).2, conflictKind c = ResourceKind.schema := by
  intro c hc
  rw [validate_schemas_conflicts_snd] at hc
  rcases List.mem_append.mp hc with h | h
  · obtain ⟨n, ds, rfl⟩ := mem_dupConflicts h
    rfl
  · obtain ⟨n, dd, bd, rfl, -⟩ := mem_crossConflicts h
    rfl

theorem mainKafka_kinds (args : Args) :
    ∃ t a, mainKafkaConflicts args = t ++ a
      ∧ (∀ c ∈ t, conflictKind c = ResourceKind.topic)
      ∧ (∀ c ∈ a, conflictKind c = ResourceKind.access) := by
  obtain ⟨bk, dk, bs, ds, env⟩ := args
  cases bk with
  | none =>
    exact ⟨[], [], rfl, fun c hc => absurd hc (List.not_mem_nil c),
      fun c hc => absurd hc (List.not_mem_nil c)⟩
  | some bf =>
    exact validate_kafka_kinds (load_kafka_catalog bf)
      (match dk with | none => none | some df => load_kafka_catalog df) env

theorem mainSchemas_kinds (args : Args) :
    ∀ c ∈ mainSchemasConflicts args, conflictKind c = ResourceKind.schema := by
  obtain ⟨bk, dk, bs, ds, env⟩ := args
  cases bs with
  | none => exact fun c hc => absurd hc (List.not_mem_nil c)
  | some bf =>
    exact validate_schemas_kinds (load_schemas_catalog bf)
      (match ds with | none => none | some df => load_schemas_catalog df) env

/-- Claim C4 counterexample: a run producing one service-account
conflict and one schema-subject conflict accumulates them in that
order — access entry before schema subject — so the claimed kind order
(topics, then schema subjects, then access entries) is violated. -/
theorem c4_counterexample : specKindOrderedB (main_run c4Args).2 = false := rfl

/-- Claim C4 (amended): the accumulated conflict list of a run is
ordered by resource kind as: all topic conflicts first, then all
access-entry (service-account) conflicts, then all schema-subject
conflicts. -/
theorem c4_kind_order (args : Args) :
    ∃ t a s, (main_run args).2 = t ++ a ++ s
      ∧ (∀ c ∈ t, conflictKind c = ResourceKind.topic)
      ∧ (∀ c ∈ a, conflictKind c = ResourceKind.access)
      ∧ (∀ c ∈ s, conflictKind c = ResourceKind.schema) := by
  obtain ⟨t, a, hka, ht, ha⟩ := mainKafka_kinds args
  refine ⟨t, a, mainSchemasConflicts args, ?_, ht, ha, mainSchemas_kinds args⟩
  show mainKafkaConflicts args ++ mainSchemasConflicts args = t ++ a ++ mainSchemasConflicts args
  rw [hka]

/-- Claim C5: the overall verdict is exit status 0 iff the accumulated
conflict list is empty, exit status 1 iff it is non-empty, and the
reported list is exactly the concatenation of every collected
conflict; each validator's `is_valid` is likewise true iff its own
conflict list is empty. -/
theorem c5_verdict_iff :
    (∀ args : Args,
        (main_run args).2 = mainKafkaConflicts args ++ mainSchemasConflicts args
        ∧ ((main_run args).1 = 0 ↔ (main_run args).2 = [])
        ∧ ((main_run args).1 = 1 ↔ (main_run args).2 ≠ []))
    ∧ (∀ (b d : Option KafkaCatalog) (env : String),
        (validate_kafka_conflicts b d env).1 = true
          ↔ (validate_kafka_conflicts b d env).2 = [])
    ∧ (∀ (b d : Option SchemasCatalog) (env : String),
        (validate_schemas_conflicts b d env).1 = true
          ↔ (validate_schemas_conflicts b d env).2 = []) := by
  refine ⟨fun args => ?_, fun b d env => ?_, fun b d env => ?_⟩
  · have hsnd : (main_run args).2 = mainKafkaConflicts args ++ mainSchemasConflicts args := rfl
    have hfst : (main_run args).1
        = if (mainKafkaConflicts args ++ mainSchemasConflicts args).length = 0 then 0 else 1 :=
      rfl
    refine ⟨hsnd, ?_, ?_⟩
    · rw [hfst, hsnd]
      by_cases h : (mainKafkaConflicts args ++ mainSchemasConflicts args).length = 0
      · rw [if_pos h]
        exact ⟨fun _ => List.length_eq_zero.mp h, fun _ => rfl⟩
      · rw [if_neg h]
        exact ⟨fun h10 => absurd h10 one_ne_zero,
          fun hl => absurd (by rw [hl]; rfl) h⟩
    · rw [hfst, hsnd]
      by_cases h : (mainKafkaConflicts args ++ mainSchemasConflicts args).length = 0
      · rw [if_pos h]
        exact ⟨fun h01 => absurd h01 zero_ne_one,
          fun hne => absurd (List.length_eq_zero.mp h) hne⟩
      · rw [if_neg h]
        exact ⟨fun _ hl => h (by rw [hl]; rfl), fun _ => rfl⟩
  · have h1 : (validate_kafka_conflicts b d env).1
        = ((validate_kafka_conflicts b d env).2.length == 0) := rfl
    rw [h1, beq_iff_eq, List.length_eq_zero]
  · have h1 : (validate_schemas_conflicts b d env).1
        = ((validate_schemas_conflicts b d env).2.length == 0) := rfl
    rw [h1, beq_iff_eq, List.length_eq_zero]

/-- Claim C6: validating a branch catalog with no deployed catalog
supplied never fails and reports no conflict at all — in particular no
branch-vs-deployed collision — for the kafka and the schemas validator
alike. -/
theorem c6_absence_tolerance (bk : Option KafkaCatalog) (bs : Option SchemasCatalog)
    (env : String) :
    validate_kafka_conflicts bk none env = (true, [])
    ∧ validate_schemas_conflicts bs none env = (true, []) := by
  have hk2 : (validate_kafka_conflicts bk none env).2 = [] := by
    rw [validate_kafka_conflicts_snd,
        dupConflicts_eq_nil Conflict.dupTopic _ (nodup_keys_topicMap bk),
        dupConflicts_eq_nil Conflict.dupAccount _ (nodup_keys_accountMap bk),
        show topicMap none = [] from rfl, show accountMap none = [] from rfl,
        crossConflicts_deployed_nil, crossConflicts_deployed_nil]
    rfl
  have hs2 : (validate_schemas_conflicts bs none env).2 = [] := by
    rw [validate_schemas_conflicts_snd,
        dupConflicts_eq_nil Conflict.dupSubject _ (nodup_keys_subjectMap bs),
        show subjectMap none = [] from rfl,
        crossConflicts_deployed_nil]
    rfl
  constructor
  · have h1 : validate_kafka_conflicts bk none env
        = (((validate_kafka_conflicts bk none env).2.length == 0),
           (validate_kafka_conflicts bk none env).2) := rfl
    rw [h1, hk2]
    rfl
  · have h1 : validate_schemas_conflicts bs none env
        = (((validate_schemas_conflicts bs none env).2.length == 0),
           (validate_schemas_conflicts bs none env).2) := rfl
    rw [h1, hs2]
    rfl

/-- Claim C7: aggregating an environment with zero per-domain
declaration files succeeds with exit status 0 and yields the
structurally valid empty catalog: `topics`, `schemas`, `access_config`
and `domains` all empty. -/
theorem c7_empty_environment :
    aggregate_kafka_resources [] = .ok ⟨[], [], [], []⟩
    ∧ run_exit (aggregate_kafka_resources []) = 0 := ⟨rfl, rfl⟩

theorem aggregate_go_failfast (bad : DomainFile) (e : String) (hbad : bad.parse = .error e) :
    ∀ (good : List DomainFile), (∀ f ∈ good, ∃ doc, f.parse = .ok doc) →
      ∀ (rest : List DomainFile) (acc : AggregatedCatalog),
        aggregate_go (good ++ bad :: rest) acc
          = .error ("Error parsing " ++ bad.fileName ++ ": " ++ e) := by
  intro good
  induction good with
  | nil =>
    intro _ rest acc
    show aggregate_go (bad :: rest) acc = _
    simp only [aggregate_go, hbad]
  | cons f good' ih =>
    intro hgood rest acc
    obtain ⟨doc, hdoc⟩ := hgood f (List.mem_cons_self f good')
    show aggregate_go (f :: (good' ++ bad :: rest)) acc = _
    simp only [aggregate_go, hdoc]
    exact ih (fun g hg => hgood g (List.mem_cons_of_mem f hg)) rest _

/-- Claim C8: when a domain's declaration file fails to parse, the
aggregation aborts at that first failure with an error naming the
offending file, exits 1, and — whatever the files after it contain —
never returns a catalog (so no partial catalog is written). -/
theorem c8_parse_failure_failfast (good rest : List DomainFile) (bad : DomainFile)
    (e : String)
    (hgood : ∀ f ∈ good, ∃ doc, f.parse = .ok doc)
    (hbad : bad.parse = .error e) :
    aggregate_kafka_resources (good ++ bad :: rest)
        = .error ("Error parsing " ++ bad.fileName ++ ": " ++ e)
    ∧ run_exit (aggregate_kafka_resources (good ++ bad :: rest)) = 1 := by
  have h := aggregate_go_failfast bad e hbad good hgood rest ⟨[], [], [], []⟩
  refine ⟨h, ?_⟩
  rw [show aggregate_kafka_resources (good ++ bad :: rest)
      = aggregate_go (good ++ bad :: rest) ⟨[], [], [], []⟩ from rfl, h]
  rfl

/-- Witness for C8: one good file, then a failing one, then another
file — the run fails with the failing file's message, regardless of the
trailing file. -/
theorem c8_parse_failure_failfast_witness :
    aggregate_kafka_resources [c8Good, c8Bad, c8Rest]
        = .error ("Error parsing " ++ c8Bad.fileName ++ ": " ++ "bad yaml")
    ∧ run_exit (aggregate_kafka_resources [c8Good, c8Bad, c8Rest]) = 1 := by
  have hgood : ∀ f ∈ [c8Good], ∃ doc, f.parse = .ok doc := by
    intro f hf
    rw [List.mem_singleton] at hf
    exact ⟨some ⟨[[("name", "orders.created")]], [], []⟩, by rw [hf]; rfl⟩
  exact c8_parse_failure_failfast [c8Good] [c8Rest] c8Bad "bad yaml" hgood rfl

/-- Claim C9 counterexample: a schema file whose content is not valid
JSON makes `aggregate_schemas` abort with exit status 1 — schema
aggregation does not succeed regardless of content validity. -/
theorem c9_counterexample :
    aggregate_schemas "dev" [c9Bad]
        = .error ("Error: Invalid JSON in " ++ c9Bad.filePath)
    ∧ run_exit (aggregate_schemas "dev" [c9Bad]) = 1 := ⟨rfl, rfl⟩

theorem aggregate_schemas_go_ok :
    ∀ (files : List SchemaFile) (cat : SchemasCatalogOut),
      (∀ f ∈ files, f.contentValidJson = true) →
      aggregate_schemas_go files cat
        = .ok ⟨cat.schemas
              ++ files.map (fun f => ⟨f.subject, f.domain, f.filePath, f.fileName⟩),
            cat.environment⟩ := by
  intro files
  induction files with
  | nil =>
    intro cat _
    show Except.ok cat = _
    rw [List.map_nil, List.append_nil]
  | cons f rest ih =>
    intro cat hok
    have hf : f.contentValidJson = true := hok f (List.mem_cons_self f rest)
    show aggregate_schemas_go (f :: rest) cat = _
    simp only [aggregate_schemas_go, hf, if_true]
    rw [ih _ (fun g hg => hok g (List.mem_cons_of_mem f hg))]
    rw [List.map_cons, List.append_assoc]
    rfl

/-- Claim C9 (amended): for schema files whose contents are valid JSON,
aggregation succeeds and records, per file, only the subject name
(taken from the file name), the owning domain and the file reference —
nothing else of the file's content; but a file whose content fails to
parse as JSON aborts the whole aggregation fatally (see the
counterexample), so success does depend on content JSON-validity. -/
theorem c9_schema_aggregation (env : String) (files : List SchemaFile)
    (hok : ∀ f ∈ files, f.contentValidJson = true) :
    aggregate_schemas env files
      = .ok ⟨files.map (fun f => ⟨f.subject, f.domain, f.filePath, f.fileName⟩), env⟩
    ∧ run_exit (aggregate_schemas env files) = 0 := by
  have h := aggregate_schemas_go_ok files ⟨[], env⟩ hok
  constructor
  · rw [show aggregate_schemas env files = aggregate_schemas_go files ⟨[], env⟩ from rfl, h]
    rw [List.nil_append]
  · rw [show aggregate_schemas env files = aggregate_schemas_go files ⟨[], env⟩ from rfl, h]
    rfl

/-- Witness for C9 (amended) at one valid-JSON schema file. -/
theorem c9_schema_aggregation_witness :
    aggregate_schemas "dev" [c9Good]
      = .ok ⟨[⟨"invoice.created", "billing",
              "domains/billing/dev/schemas/invoice.created.avsc",
              "invoice.created.avsc"⟩], "dev"⟩ := by
  have h := (c9_schema_aggregation "dev" [c9Good] (by
    intro f hf
    rw [List.mem_singleton] at hf
    rw [hf]
    rfl)).1
  exact h

/-- Claim C10: validation is total on ill-shaped entries: an entry with
no owning-domain tag ends up owned by the domain `unknown` (first
conjunct: the mapping built after such an entry binds its identity to
`"unknown"`), and an entry with no identity key is keyed under the
absent value (`none`) and compared like any other identity (second
conjunct: the branch-vs-deployed comparison at identity `none` behaves
exactly as at any identity). -/
theorem c10_illshaped_entries :
    (∀ (es : List (Option String × Option String)) (k : Option String),
        dictGet (buildMap (es ++ [(k, none)])) k = some "unknown")
    ∧ (∀ (b d : Option KafkaCatalog) (env : String) (bd dd : String),
        dictGet (topicMap b) none = some bd →
        dictGet (topicMap d) none = some dd →
        (((validate_kafka_conflicts b d env).2.countP (isTopicConflictAt none)
            = if bd = dd then 0 else 1)
          ∧ (bd ≠ dd →
              Conflict.topicCollision none dd bd ∈ (validate_kafka_conflicts b d env).2))) := by
  constructor
  · intro es k
    have h : buildMap (es ++ [(k, (none : Option String))])
        = pyInsert (buildMap es) k ((none : Option String).getD "unknown") := by
      unfold buildMap
      rw [List.foldl_append]
      rfl
    rw [h]
    exact dictGet_pyInsert_same (buildMap es) k "unknown"
  · intro b d env bd dd hb hd
    exact kafka_topic_conflict_count b d env none bd dd hb hd

/-- Witness for C10: a domainless entry maps to `unknown`; two nameless
entries in branch and deployed under different domains yield exactly
one collision at the absent identity. -/
theorem c10_illshaped_entries_witness :
    dictGet (buildMap ([] ++ [(some "orders.created", none)])) (some "orders.created")
        = some "unknown"
    ∧ (validate_kafka_conflicts (some c10Branch) (some c10Deployed) "dev").2.countP
        (isTopicConflictAt none) = 1 := by
  constructor
  · exact c10_illshaped_entries.1 [] (some "orders.created")
  · have h := (c10_illshaped_entries.2 (some c10Branch) (some c10Deployed) "dev"
        "orders" "billing" rfl rfl).1
    rw [h]
    rfl
